import Mathlib

/-!
Shallow embedding of `src/main.cpp` from the EvolvingRobby repository:
a genetic algorithm evolving a lookup-table policy for a can-collecting
grid robot.  Pure fragments of the C++ become Lean functions; the
stateful simulation loop becomes explicit state passing; the shared
pseudo-random engine becomes an explicit stream parameter; C++ `int`
becomes `Int`/`Nat`; the `float` reward accumulator only ever adds the
integer constants 10, -1, -5 (exact in IEEE single precision at these
magnitudes), so it is embedded as `Int`, and the single final division
`points / maxPoints` is embedded in `ℚ`.
-/

set_option maxRecDepth 8000

namespace EvolvingRobby

/-- Reward constant `PICK_SUCCESS_PTS = 10` (main.cpp line 8). -/
def PICK_SUCCESS_PTS : Int := 10

/-- Reward constant `PICK_FAIL_PTS = -1` (main.cpp line 9). -/
def PICK_FAIL_PTS : Int := -1

/-- Reward constant `WALL_HIT_PTS = -5` (main.cpp line 10). -/
def WALL_HIT_PTS : Int := -5

/-- `Input::State` (main.cpp lines 13-18): the three valid sensor cell
states.  The sentinel `COUNT` (= 3) is the radix, not a state, and is
kept out of the type; the radix appears as the literal 3 below. -/
inductive Input.State where
  | EMPTY
  | WALL
  | CAN
  deriving DecidableEq, Fintype

/-- The integer value of a state under `static_cast<int>` (the enum
values are 0, 1, 2 in declaration order). -/
def Input.State.toInt : Input.State → Nat
  | .EMPTY => 0
  | .WALL => 1
  | .CAN => 2

/-- `Input` (main.cpp lines 12-66): a 5-cell sensor reading, fields in
the order of `state[0..4]` = (current, north, east, south, west). -/
structure Input where
  current : Input.State
  north : Input.State
  east : Input.State
  south : Input.State
  west : Input.State
  deriving DecidableEq, Fintype

/-- `Input::LENGTH = 5` (main.cpp line 19). -/
def Input.LENGTH : Nat := 5

/-- `Input::COMBINATIONS = 243` = 3^5 (main.cpp line 20). -/
def Input.COMBINATIONS : Nat := 243

/-- The five states in array order `state[0], ..., state[4]`. -/
def Input.stateList (t : Input) : List Input.State :=
  [t.current, t.north, t.east, t.south, t.west]

/-- `Input::operator int` (main.cpp lines 35-44): the encode direction,
`code = code * 3 + state[i]` folded over i = 0..4. -/
def Input.toInt (t : Input) : Nat :=
  t.stateList.foldl (fun code s => code * 3 + s.toInt) 0

/-- Inverse of `static_cast<State>(n)` for n in [0,3); the constructor
`Input(int)` only ever applies it to `code % 3`.  Values outside [0,3)
do not arise there (the default arm mirrors the unchecked C++ cast). -/
def Input.State.fromInt : Nat → Input.State
  | 0 => .EMPTY
  | 1 => .WALL
  | _ => .CAN

/-- `Input::Input(int code)` (main.cpp lines 27-33): the decode
direction.  The loop writes `state[5-(1+i)] = code % 3; code /= 3` for
i = 0..4, so `west` gets `code % 3`, `south` gets `code / 3 % 3`, and
so on up to `current = code / 81 % 3`; here it is unrolled. -/
def Input.ofCode (code : Nat) : Input :=
  { current := Input.State.fromInt (code / 81 % 3)
    north := Input.State.fromInt (code / 27 % 3)
    east := Input.State.fromInt (code / 9 % 3)
    south := Input.State.fromInt (code / 3 % 3)
    west := Input.State.fromInt (code % 3) }

/-- The encoded value of every reading is below 243 (this is the
`assert(code < Input::COMBINATIONS)` on main.cpp line 42, here a
theorem instead of a runtime check). -/
theorem Input.toInt_lt (t : Input) : t.toInt < Input.COMBINATIONS := by
  revert t
  decide

/-- Round-trip on codes, stated over `Fin 243` so it is decidable. -/
theorem Input.ofCode_toInt_fin : ∀ c : Fin 243, (Input.ofCode c.val).toInt = c.val := by
  decide

/-- C1: `Input(int)` and `operator int` are mutually inverse between
codes in [0,243) and 5-cell readings: encoding the decode of any code
c < 243 yields c, and decoding the encode of any reading yields the
reading back. -/
theorem C1_encode_decode_roundtrip :
    (∀ c : Nat, c < Input.COMBINATIONS → (Input.ofCode c).toInt = c) ∧
    (∀ t : Input, Input.ofCode t.toInt = t) := by
  constructor
  · intro c hc
    exact Input.ofCode_toInt_fin ⟨c, hc⟩
  · decide

/-- Witness instantiating C1 at the concrete code 200 and a concrete
reading. -/
theorem C1_witness :
    (Input.ofCode 200).toInt = 200 ∧
    Input.ofCode (Input.toInt ⟨.CAN, .EMPTY, .WALL, .CAN, .EMPTY⟩) =
      ⟨.CAN, .EMPTY, .WALL, .CAN, .EMPTY⟩ :=
  ⟨C1_encode_decode_roundtrip.1 200 (by decide),
   C1_encode_decode_roundtrip.2 ⟨.CAN, .EMPTY, .WALL, .CAN, .EMPTY⟩⟩

/-- `World::WIDTH = 11` (main.cpp line 70). -/
def World.WIDTH : Int := 11

/-- `World::HEIGHT = 11` (main.cpp line 71). -/
def World.HEIGHT : Int := 11

/-- `World::isCoordinateValid` (main.cpp lines 136-139):
`(0 <= x && x < WIDTH) && (0 <= y && y < HEIGHT)`.  In the source it is
a member function that reads no member state; here it is standalone. -/
def isCoordinateValid (x y : Int) : Bool :=
  (decide (0 ≤ x) && decide (x < World.WIDTH)) &&
    (decide (0 ≤ y) && decide (y < World.HEIGHT))

theorem isCoordinateValid_iff (x y : Int) :
    isCoordinateValid x y = true ↔ 0 ≤ x ∧ x < 11 ∧ 0 ≤ y ∧ y < 11 := by
  simp [isCoordinateValid, World.WIDTH, World.HEIGHT, and_assoc]

/-- `World` (main.cpp lines 68-140): the 11x11 array `hasCan[y][x]` is
embedded as a function on `Int` coordinates that is `false` outside the
grid (the C++ array simply does not exist there, and every C++ read is
bounds-guarded), plus the maintained counter `canCount`. -/
structure World where
  hasCan : Int → Int → Bool
  canCount : Int

/-- The grid's index set: pairs (x, y) with x, y in [0,11). -/
def gridCells : Finset (Nat × Nat) := Finset.range 11 ×ˢ Finset.range 11

/-- The number of occupied grid cells (the quantity the constructor
accumulates into `canCount`, main.cpp lines 81-87). -/
def gridCanCount (occ : Int → Int → Bool) : Int :=
  gridCells.sum fun c => if occ (c.1 : Int) (c.2 : Int) then (1 : Int) else 0

/-- `World::World(float fill)` (main.cpp lines 78-88).  The constructor
draws one uniform float per cell and occupies the cell iff the draw is
below `fill`; the per-cell outcomes are abstracted into the boolean
function `occ` (one independent boolean per cell), and `canCount` is
the number of occupied cells, exactly as the constructor counts it. -/
def World.create (occ : Int → Int → Bool) : World :=
  let inGrid : Int → Int → Bool := fun x y => isCoordinateValid x y && occ x y
  { hasCan := inGrid, canCount := gridCanCount inGrid }

/-- `World::tryPickCan` (main.cpp lines 90-99): if the cell is empty
return false without mutation; otherwise clear the cell, decrement the
counter and return true.  The `assert(isCoordinateValid(x, y))` on
line 92 is a precondition carried as a hypothesis by the theorems. -/
def World.tryPickCan (w : World) (x y : Int) : Bool × World :=
  if w.hasCan x y = false then (false, w)
  else (true,
    { hasCan := fun a b => if a = x ∧ b = y then false else w.hasCan a b
      canCount := w.canCount - 1 })

/-- `World::getState` (main.cpp lines 101-109): Wall outside the grid,
otherwise Can or Empty by occupancy. -/
def World.getState (w : World) (x y : Int) : Input.State :=
  if isCoordinateValid x y = false then Input.State.WALL
  else if w.hasCan x y then Input.State.CAN else Input.State.EMPTY

/-- `World::getInput` (main.cpp lines 111-121): the 5-cell reading at
(x, y), in the constructor order (current, north, east, south, west).
The `assert(isCoordinateValid(x, y))` on line 113 is a precondition. -/
def World.getInput (w : World) (x y : Int) : Input :=
  { current := w.getState x y
    north := w.getState x (y + 1)
    east := w.getState (x + 1) y
    south := w.getState x (y - 1)
    west := w.getState (x - 1) y }

/-- `RobotGenome::Action` (main.cpp lines 144-153); the sentinel
`COUNT` (= 7) is not an action and is kept out of the type. -/
inductive RobotGenome.Action where
  | STAY_PUT
  | TRY_PICK
  | MOVE_RANDOM
  | MOVE_NORTH
  | MOVE_EAST
  | MOVE_SOUTH
  | MOVE_WEST
  deriving DecidableEq

/-- `RobotGenome::LENGTH = Input::COMBINATIONS = 243` (line 157). -/
def RobotGenome.LENGTH : Nat := 243

/-- `RobotGenome` (main.cpp lines 142-215): the 243-entry action table
`rule`, embedded as a function from table index to action. -/
def RobotGenome : Type := Fin 243 → RobotGenome.Action

/-- `RobotGenome::MoveAction` (main.cpp line 154): the four concrete
movement actions, in array order. -/
def RobotGenome.MoveAction : Fin 4 → RobotGenome.Action
  | 0 => .MOVE_NORTH
  | 1 => .MOVE_EAST
  | 2 => .MOVE_SOUTH
  | 3 => .MOVE_WEST

/-- `RobotGenome::RobotGenome(parentA, parentB)` (main.cpp lines
167-177), given the drawn `splitIndex`: line 174 copies entries
[0, splitIndex) from `parentA.rule`, and line 175 copies entries
[splitIndex, 243) also from `parentA.rule` (both `std::copy` calls
read from parentA; parentB is never read). -/
def RobotGenome.crossover (parentA parentB : RobotGenome) (splitIndex : Fin 243) :
    RobotGenome :=
  fun i => if i.val < splitIndex.val then parentA i else parentA i

/-- C2: for every pair of parents and every split index k, the child of
`RobotGenome(parentA, parentB)` agrees with parentA on every entry
(both the head [0,k) and the tail [k,243) are copied from parentA), so
the child is independent of parentB. -/
theorem C2_crossover_copies_only_parentA :
    ∀ (parentA parentB : RobotGenome) (k : Fin 243),
      (∀ i : Fin 243, RobotGenome.crossover parentA parentB k i = parentA i) ∧
      (∀ parentB2 : RobotGenome,
        RobotGenome.crossover parentA parentB k = RobotGenome.crossover parentA parentB2 k) := by
  intro parentA parentB k
  constructor
  · intro i
    unfold RobotGenome.crossover
    split <;> rfl
  · intro parentB2
    rfl

theorem World.tryPickCan_of_empty {w : World} {x y : Int}
    (h : w.hasCan x y = false) : w.tryPickCan x y = (false, w) := by
  simp [World.tryPickCan, h]

theorem World.tryPickCan_of_occupied {w : World} {x y : Int}
    (h : w.hasCan x y = true) :
    w.tryPickCan x y =
      (true,
        { hasCan := fun a b => if a = x ∧ b = y then false else w.hasCan a b
          canCount := w.canCount - 1 }) := by
  simp [World.tryPickCan, h]

/-- Removing one element's unit contribution from a sum over a finite
set drops the sum by exactly one. -/
theorem sum_update_sub_one {α : Type} [DecidableEq α] (s : Finset α)
    (f g : α → Int) (a : α) (ha : a ∈ s)
    (hsame : ∀ b ∈ s, b ≠ a → g b = f b) (hdrop : g a = f a - 1) :
    s.sum g = s.sum f - 1 := by
  rw [← Finset.sum_erase_add s g ha, ← Finset.sum_erase_add s f ha]
  have herase : (s.erase a).sum g = (s.erase a).sum f := by
    apply Finset.sum_congr rfl
    intro b hb
    exact hsame b (Finset.mem_of_mem_erase hb) (Finset.ne_of_mem_erase hb)
  rw [herase, hdrop]
  ring

/-- Clearing one occupied, in-bounds cell decreases the grid count by
exactly one. -/
theorem gridCanCount_clear (occ : Int → Int → Bool) (x y : Int)
    (hv : isCoordinateValid x y = true) (hocc : occ x y = true) :
    gridCanCount (fun a b => if a = x ∧ b = y then false else occ a b) =
      gridCanCount occ - 1 := by
  obtain ⟨hx0, hx1, hy0, hy1⟩ := (isCoordinateValid_iff x y).mp hv
  have hxcast : (x.toNat : Int) = x := Int.toNat_of_nonneg hx0
  have hycast : (y.toNat : Int) = y := Int.toNat_of_nonneg hy0
  have hmem : (x.toNat, y.toNat) ∈ gridCells := by
    simp only [gridCells, Finset.mem_product, Finset.mem_range]
    omega
  apply sum_update_sub_one gridCells _ _ (x.toNat, y.toNat) hmem
  · intro b _ hb
    have hne : ¬ ((b.1 : Int) = x ∧ (b.2 : Int) = y) := by
      intro hcontra
      apply hb
      have h1 : b.1 = x.toNat := by omega
      have h2 : b.2 = y.toNat := by omega
      exact Prod.ext h1 h2
    simp [hne]
  · simp [hxcast, hycast, hocc]

/-- The world's invariant: the maintained counter equals the number of
occupied grid cells, and no cell outside the grid is occupied. -/
def World.WF (w : World) : Prop :=
  w.canCount = gridCanCount w.hasCan ∧
    ∀ x y : Int, isCoordinateValid x y = false → w.hasCan x y = false

/-- A freshly constructed world satisfies the invariant. -/
theorem World.create_WF (occ : Int → Int → Bool) : (World.create occ).WF := by
  constructor
  · rfl
  · intro x y hxy
    simp [World.create, hxy]

/-- `tryPickCan` preserves the invariant. -/
theorem World.tryPickCan_WF {w : World} (hw : w.WF) (x y : Int) :
    (w.tryPickCan x y).2.WF := by
  cases hocc : w.hasCan x y with
  | false => rw [World.tryPickCan_of_empty hocc]; exact hw
  | true =>
    rw [World.tryPickCan_of_occupied hocc]
    have hv : isCoordinateValid x y = true := by
      by_contra hnv
      have := hw.2 x y (by revert hnv; cases isCoordinateValid x y <;> simp)
      rw [this] at hocc
      exact Bool.false_ne_true hocc
    constructor
    · have := gridCanCount_clear w.hasCan x y hv hocc
      simp only [this, hw.1]
    · intro a b hab
      by_cases hcase : a = x ∧ b = y
      · simp [hcase]
      · simp only [hcase, if_false]
        exact hw.2 a b hab

/-- The grid count is never negative. -/
theorem gridCanCount_nonneg (occ : Int → Int → Bool) : 0 ≤ gridCanCount occ := by
  apply Finset.sum_nonneg
  intro c _
  split <;> omega

/-- C7: picking at a valid coordinate: on an occupied cell it clears
the cell, decrements the counter by one and returns true; on an empty
cell it returns false and leaves the world unchanged; hence two
successive picks at the same initially occupied cell return true then
false and decrement the counter by exactly one in total. -/
theorem C7_tryPickCan_contract (w : World) (x y : Int)
    (hv : isCoordinateValid x y = true) :
    (w.hasCan x y = true →
      (w.tryPickCan x y).1 = true ∧
      (w.tryPickCan x y).2.hasCan x y = false ∧
      (w.tryPickCan x y).2.canCount = w.canCount - 1 ∧
      ((w.tryPickCan x y).2.tryPickCan x y).1 = false ∧
      ((w.tryPickCan x y).2.tryPickCan x y).2.canCount = w.canCount - 1) ∧
    (w.hasCan x y = false → w.tryPickCan x y = (false, w)) := by
  constructor
  · intro hocc
    rw [World.tryPickCan_of_occupied hocc]
    have hcleared :
        ((fun a b => if a = x ∧ b = y then false else w.hasCan a b) x y) = false := by
      simp
    refine ⟨rfl, by simp, rfl, ?_, ?_⟩
    · rw [World.tryPickCan_of_empty hcleared]
    · rw [World.tryPickCan_of_empty hcleared]
  · intro hempty
    exact World.tryPickCan_of_empty hempty

/-- Witness instantiating C7 at a concrete world (a single can at
(3, 4)) and the coordinate (3, 4). -/
theorem C7_witness :
    ((World.create fun a b => a == 3 && b == 4).tryPickCan 3 4).1 = true ∧
    (((World.create fun a b => a == 3 && b == 4).tryPickCan 3 4).2.tryPickCan 3 4).1 = false := by
  have h := C7_tryPickCan_contract (World.create fun a b => a == 3 && b == 4) 3 4
    (by decide)
  have hocc := (h.1 (by decide))
  exact ⟨hocc.1, hocc.2.2.2.1⟩

/-- C8: for every freshly constructed world and every sequence of pick
operations applied to it, the maintained counter `canCount` equals the
number of grid cells whose occupancy flag is true. -/
theorem C8_counter_invariant :
    ∀ (occ : Int → Int → Bool) (ops : List (Int × Int)),
      (ops.foldl (fun w p => (w.tryPickCan p.1 p.2).2) (World.create occ)).canCount =
        gridCanCount
          (ops.foldl (fun w p => (w.tryPickCan p.1 p.2).2) (World.create occ)).hasCan := by
  intro occ ops
  have hfold : ∀ (l : List (Int × Int)) (w : World), w.WF →
      (l.foldl (fun w p => (w.tryPickCan p.1 p.2).2) w).WF := by
    intro l
    induction l with
    | nil => intro w hw; exact hw
    | cons p t ih =>
      intro w hw
      exact ih _ (World.tryPickCan_WF hw p.1 p.2)
  exact (hfold ops (World.create occ) (World.create_WF occ)).1

/-- The state threaded through `simulate`'s loop (main.cpp lines
262-305): agent position `rx, ry`, accumulated `score`, the mutated
world, how many random draws have been consumed from the engine, and
how many loop iterations have executed (the loop variable `s`). -/
structure SimState where
  rx : Int
  ry : Int
  score : Int
  world : World
  draws : Nat
  steps : Nat

/-- The table lookup `robotGenome.rule[static_cast<int>(input)]`
(main.cpp line 270), with the reading taken at the agent's position. -/
def rawAction (g : RobotGenome) (st : SimState) : RobotGenome.Action :=
  g ⟨(st.world.getInput st.rx st.ry).toInt, Input.toInt_lt _⟩

/-- MoveRandom resolution (main.cpp lines 272-274): if the looked-up
action is MOVE_RANDOM, replace it by `MoveAction[movesDist(engine)]`;
`rng` is the explicit random stream and `st.draws` indexes the next
unconsumed draw. -/
def resolvedAction (g : RobotGenome) (rng : Nat → Fin 4) (st : SimState) :
    RobotGenome.Action :=
  if rawAction g st = RobotGenome.Action.MOVE_RANDOM
  then RobotGenome.MoveAction (rng st.draws)
  else rawAction g st

/-- The per-action displacement set by the `switch` (main.cpp lines
275-295): North (0,1), East (1,0), South (0,-1), West (-1,0), all other
actions (0,0). -/
def actionDisp : RobotGenome.Action → Int × Int
  | .MOVE_NORTH => (0, 1)
  | .MOVE_EAST => (1, 0)
  | .MOVE_SOUTH => (0, -1)
  | .MOVE_WEST => (-1, 0)
  | _ => (0, 0)

/-- The end of one loop iteration (main.cpp lines 296-302): if the
destination `(rx + dx, ry + dy)` is invalid, add `WALL_HIT_PTS` and
cancel the displacement; then apply the displacement and advance the
loop counter. -/
def moveStep (st : SimState) (dx dy : Int) (score : Int) (world : World)
    (draws : Nat) : SimState :=
  if isCoordinateValid (st.rx + dx) (st.ry + dy) then
    { rx := st.rx + dx, ry := st.ry + dy, score := score, world := world
      draws := draws, steps := st.steps + 1 }
  else
    { rx := st.rx, ry := st.ry, score := score + WALL_HIT_PTS, world := world
      draws := draws, steps := st.steps + 1 }

/-- The `switch (action)` body (main.cpp lines 275-295) followed by the
wall check: TRY_PICK attempts a pick at the agent's cell and scores
`PICK_SUCCESS_PTS` or `PICK_FAIL_PTS` (line 279); movement actions set
the displacement; STAY_PUT does nothing.  The MOVE_RANDOM arm is dead
code here because `resolvedAction` never returns it (in the source the
corresponding `default:` arm is `assert(false)`). -/
def applyAction (st : SimState) (a : RobotGenome.Action) (draws : Nat) : SimState :=
  match a with
  | .TRY_PICK =>
      moveStep st 0 0
        (st.score +
          if (st.world.tryPickCan st.rx st.ry).1 then PICK_SUCCESS_PTS else PICK_FAIL_PTS)
        (st.world.tryPickCan st.rx st.ry).2 draws
  | a => moveStep st (actionDisp a).1 (actionDisp a).2 st.score st.world draws

/-- One full iteration of the simulation loop body (main.cpp lines
268-302). -/
def simStep (g : RobotGenome) (rng : Nat → Fin 4) (st : SimState) : SimState :=
  applyAction st (resolvedAction g rng st)
    (if rawAction g st = RobotGenome.Action.MOVE_RANDOM then st.draws + 1 else st.draws)

/-- The loop `for (s = 0; s < MAX_STEPS && world.canCount > 0; ++s)`
(main.cpp line 267), with the remaining budget as fuel: it stops when
the budget is exhausted or the can count is no longer positive. -/
def simLoop (g : RobotGenome) (rng : Nat → Fin 4) : Nat → SimState → SimState
  | 0, st => st
  | n + 1, st =>
      if 0 < st.world.canCount then simLoop g rng n (simStep g rng st) else st

/-- The initial loop state (main.cpp lines 264-266): agent at the grid
center `(WIDTH / 2, HEIGHT / 2)`, score 0. -/
def initState (w : World) : SimState :=
  { rx := World.WIDTH / 2, ry := World.HEIGHT / 2, score := 0, world := w
    draws := 0, steps := 0 }

/-- `simulate` (main.cpp lines 262-305).  The C++ function returns
`score`; the embedding returns the whole final state so that theorems
can also speak about the final position, world and iteration count. -/
def simulate (g : RobotGenome) (rng : Nat → Fin 4) (w : World) (maxSteps : Nat) :
    SimState :=
  simLoop g rng maxSteps (initState w)

/-- `main`'s per-child fitness assignment (main.cpp line 328):
`points > 0 ? points / maxPoints : 0`, with the division in ℚ. -/
def evalFitness (points maxPoints : Int) : ℚ :=
  if 0 < points then (points : ℚ) / (maxPoints : ℚ) else 0

theorem simStep_steps (g : RobotGenome) (rng : Nat → Fin 4) (st : SimState) :
    (simStep g rng st).steps = st.steps + 1 := by
  unfold simStep applyAction moveStep
  split <;> split <;> rfl

theorem simLoop_zero (g : RobotGenome) (rng : Nat → Fin 4) (st : SimState) :
    simLoop g rng 0 st = st := rfl

theorem simLoop_succ (g : RobotGenome) (rng : Nat → Fin 4) (n : Nat) (st : SimState) :
    simLoop g rng (n + 1) st =
      if 0 < st.world.canCount then simLoop g rng n (simStep g rng st) else st := rfl

theorem simLoop_of_no_cans (g : RobotGenome) (rng : Nat → Fin 4) (n : Nat)
    (st : SimState) (h : st.world.canCount ≤ 0) : simLoop g rng n st = st := by
  cases n with
  | zero => rfl
  | succ m => rw [simLoop_succ, if_neg (Int.not_lt.mpr h)]

theorem simLoop_steps_le (g : RobotGenome) (rng : Nat → Fin 4) :
    ∀ (n : Nat) (st : SimState), (simLoop g rng n st).steps ≤ st.steps + n := by
  intro n
  induction n with
  | zero => intro st; exact Nat.le_refl _
  | succ m ih =>
    intro st
    rw [simLoop_succ]
    split
    · calc (simLoop g rng m (simStep g rng st)).steps
          ≤ (simStep g rng st).steps + m := ih _
        _ = st.steps + (m + 1) := by rw [simStep_steps]; omega
    · omega

theorem simLoop_add (g : RobotGenome) (rng : Nat → Fin 4) :
    ∀ (m n : Nat) (st : SimState),
      simLoop g rng (m + n) st = simLoop g rng n (simLoop g rng m st) := by
  intro m
  induction m with
  | zero => intro n st; simp [simLoop]
  | succ k ih =>
    intro n st
    by_cases h : 0 < st.world.canCount
    · have hshift : k + 1 + n = (k + n) + 1 := by omega
      rw [hshift, simLoop_succ, if_pos h, simLoop_succ, if_pos h]
      exact ih n (simStep g rng st)
    · have hle : st.world.canCount ≤ 0 := Int.not_lt.mp h
      rw [simLoop_of_no_cans g rng (k + 1 + n) st hle,
        simLoop_of_no_cans g rng (k + 1) st hle,
        simLoop_of_no_cans g rng n st hle]

theorem simLoop_early_exit (g : RobotGenome) (rng : Nat → Fin 4) :
    ∀ (n : Nat) (st : SimState),
      (simLoop g rng n st).steps < st.steps + n →
      (simLoop g rng n st).world.canCount ≤ 0 ∧
        ∃ m, m < n ∧ simLoop g rng m st = simLoop g rng n st := by
  intro n
  induction n with
  | zero =>
    intro st h
    rw [simLoop_zero] at h
    omega
  | succ k ih =>
    intro st h
    by_cases hc : 0 < st.world.canCount
    · have hrw : simLoop g rng (k + 1) st = simLoop g rng k (simStep g rng st) := by
        rw [simLoop_succ, if_pos hc]
      rw [hrw] at h ⊢
      have hsteps : (simStep g rng st).steps = st.steps + 1 := simStep_steps g rng st
      have hlt : (simLoop g rng k (simStep g rng st)).steps < (simStep g rng st).steps + k := by
        omega
      obtain ⟨hcc, m, hm, heq⟩ := ih (simStep g rng st) hlt
      refine ⟨hcc, m + 1, by omega, ?_⟩
      have hone : simLoop g rng (m + 1) st = simLoop g rng m (simStep g rng st) := by
        rw [simLoop_succ, if_pos hc]
      rw [hone, heq]
    · have hle : st.world.canCount ≤ 0 := Int.not_lt.mp hc
      rw [simLoop_of_no_cans g rng (k + 1) st hle]
      exact ⟨hle, 0, by omega, by rw [simLoop_zero]⟩

/-- C4: `simulate` executes at most `maxSteps` loop iterations, and it
executes strictly fewer iff the world's can count has dropped to zero
at the start of some iteration n strictly before the budget is spent
(the state at the start of iteration n is `simulate` run with budget
n). -/
theorem C4_termination (g : RobotGenome) (rng : Nat → Fin 4) (w : World)
    (maxSteps : Nat) :
    (simulate g rng w maxSteps).steps ≤ maxSteps ∧
    ((simulate g rng w maxSteps).steps < maxSteps ↔
      ∃ n, n < maxSteps ∧ (simulate g rng w n).world.canCount ≤ 0) := by
  refine ⟨?_, ?_, ?_⟩
  · have h := simLoop_steps_le g rng maxSteps (initState w)
    simpa [simulate, initState] using h
  · intro hlt
    have h := simLoop_early_exit g rng maxSteps (initState w)
      (by simpa [simulate, initState] using hlt)
    obtain ⟨hcc, m, hm, heq⟩ := h
    exact ⟨m, hm, by simpa [simulate] using heq ▸ hcc⟩
  · rintro ⟨n, hn, hcc⟩
    have hsplit : simulate g rng w maxSteps =
        simLoop g rng (maxSteps - n) (simulate g rng w n) := by
      unfold simulate
      rw [← simLoop_add g rng n (maxSteps - n) (initState w)]
      congr 1
      omega
    rw [hsplit, simLoop_of_no_cans g rng _ _ hcc]
    have h := simLoop_steps_le g rng n (initState w)
    simp only [simulate, initState] at *
    omega

theorem moveStep_of_invalid (st : SimState) (dx dy score2 : Int) (world : World)
    (draws : Nat) (h : isCoordinateValid (st.rx + dx) (st.ry + dy) = false) :
    moveStep st dx dy score2 world draws =
      { rx := st.rx, ry := st.ry, score := score2 + WALL_HIT_PTS, world := world
        draws := draws, steps := st.steps + 1 } := by
  unfold moveStep
  rw [h]
  rfl

theorem moveStep_world (st : SimState) (dx dy score2 : Int) (world : World)
    (draws : Nat) : (moveStep st dx dy score2 world draws).world = world := by
  unfold moveStep
  split <;> rfl

theorem moveStep_score_le (st : SimState) (dx dy score2 : Int) (world : World)
    (draws : Nat) : (moveStep st dx dy score2 world draws).score ≤ score2 := by
  unfold moveStep
  split
  · exact le_refl _
  · show score2 + WALL_HIT_PTS ≤ score2
    simp only [WALL_HIT_PTS]
    omega

theorem moveStep_valid (st : SimState) (dx dy score2 : Int) (world : World)
    (draws : Nat) (h : isCoordinateValid st.rx st.ry = true) :
    isCoordinateValid (moveStep st dx dy score2 world draws).rx
      (moveStep st dx dy score2 world draws).ry = true := by
  unfold moveStep
  split
  · next hdest => exact hdest
  · exact h

theorem applyAction_valid (st : SimState) (a : RobotGenome.Action) (draws : Nat)
    (h : isCoordinateValid st.rx st.ry = true) :
    isCoordinateValid (applyAction st a draws).rx (applyAction st a draws).ry = true := by
  cases a <;> exact moveStep_valid st _ _ _ _ _ h

theorem simStep_valid (g : RobotGenome) (rng : Nat → Fin 4) (st : SimState)
    (h : isCoordinateValid st.rx st.ry = true) :
    isCoordinateValid (simStep g rng st).rx (simStep g rng st).ry = true :=
  applyAction_valid st _ _ h

/-- C10: throughout `simulate` the agent's coordinate is valid at the
start of every iteration: running the loop for any prefix of n
iterations from the center start leaves the agent at a valid
coordinate, and the start coordinate is the center (WIDTH/2, HEIGHT/2).
Since `getInput` and `tryPickCan` are only ever called at the agent's
current coordinate, their asserted precondition `isCoordinateValid`
holds on every call `simulate` makes. -/
theorem C10_agent_position_valid :
    ∀ (g : RobotGenome) (rng : Nat → Fin 4) (w : World) (n : Nat),
      isCoordinateValid (simulate g rng w n).rx (simulate g rng w n).ry = true ∧
      (simulate g rng w 0).rx = World.WIDTH / 2 ∧
      (simulate g rng w 0).ry = World.HEIGHT / 2 := by
  intro g rng w n
  refine ⟨?_, rfl, rfl⟩
  have hinv : ∀ (m : Nat) (st : SimState), isCoordinateValid st.rx st.ry = true →
      isCoordinateValid (simLoop g rng m st).rx (simLoop g rng m st).ry = true := by
    intro m
    induction m with
    | zero =>
      intro st h
      rwa [simLoop_zero]
    | succ k ih =>
      intro st h
      rw [simLoop_succ]
      split
      · exact ih _ (simStep_valid g rng st h)
      · exact h
  exact hinv n (initState w) rfl

/-- A random stream that always answers 0 (never consumed by the
genomes below, which contain no MOVE_RANDOM entry). -/
def rngZero : Nat → Fin 4 := fun _ => 0

/-- The all-StayPut genome of the C5 scenario. -/
def allStay : RobotGenome := fun _ => RobotGenome.Action.STAY_PUT

/-- Cell outcomes that occupy no cell: the deterministic no-item world
of the C5 scenario. -/
def occEmpty : Int → Int → Bool := fun _ _ => false

/-- The no-item world of the C5 scenario. -/
def emptyWorld : World := World.create occEmpty

/-- C5 counterexample: in the no-item world with the all-StayPut genome
and maxSteps = 5, `simulate` does not both return 0 and execute all 5
iterations — the loop condition `world.canCount > 0` is already false
at entry, so the claimed full-budget run is refuted. -/
theorem C5_counterexample :
    ¬ ((simulate allStay rngZero emptyWorld 5).score = 0 ∧
       (simulate allStay rngZero emptyWorld 5).steps = 5) := by
  decide

/-- C5 amended: in the no-item world with the all-StayPut genome and
maxSteps = 5, `simulate` returns reward 0 but executes 0 loop
iterations (it exits immediately because the remaining item count is
already 0), instead of consuming the 5-step budget. -/
theorem C5_empty_world_exits_immediately :
    (simulate allStay rngZero emptyWorld 5).score = 0 ∧
    (simulate allStay rngZero emptyWorld 5).steps = 0 := by
  decide

/-- The all-MoveSouth genome of the C6 scenario (in particular it maps
the corner's sensor code to MOVE_SOUTH). -/
def allSouth : RobotGenome := fun _ => RobotGenome.Action.MOVE_SOUTH

/-- Cell outcomes with a single can far from the corner, so the C6
scenario's loop actually runs (the loop body is only entered while
`canCount > 0`). -/
def occFar : Int → Int → Bool := fun a b => a == 10 && b == 10

/-- The loop state of the C6 scenario: agent at the corner (0,0) of a
world whose only can is at (10,10). -/
def cornerStart : SimState :=
  { rx := 0, ry := 0, score := 0, world := World.create occFar, draws := 0, steps := 0 }

/-- C6: (1) in any iteration whose resolved action is a movement
(including a MoveRandom resolution) toward an out-of-bounds
destination, the step adds `WALL_HIT_PTS` (-5) to the score and leaves
the agent's position unchanged; (2) running one iteration of the loop
with the agent at corner (0,0), a genome mapping its sensor code to
MoveSouth, and a remaining can elsewhere, yields reward exactly -5 with
the agent still at (0,0). -/
theorem C6_wall_penalty :
    (∀ (g : RobotGenome) (rng : Nat → Fin 4) (st : SimState),
      (resolvedAction g rng st = RobotGenome.Action.MOVE_NORTH ∨
       resolvedAction g rng st = RobotGenome.Action.MOVE_EAST ∨
       resolvedAction g rng st = RobotGenome.Action.MOVE_SOUTH ∨
       resolvedAction g rng st = RobotGenome.Action.MOVE_WEST) →
      isCoordinateValid (st.rx + (actionDisp (resolvedAction g rng st)).1)
        (st.ry + (actionDisp (resolvedAction g rng st)).2) = false →
      (simStep g rng st).score = st.score + WALL_HIT_PTS ∧
      (simStep g rng st).rx = st.rx ∧ (simStep g rng st).ry = st.ry) ∧
    ((simLoop allSouth rngZero 1 cornerStart).score = -5 ∧
     (simLoop allSouth rngZero 1 cornerStart).rx = 0 ∧
     (simLoop allSouth rngZero 1 cornerStart).ry = 0) := by
  constructor
  · intro g rng st hmov hinv
    rcases hmov with h | h | h | h <;>
      (rw [h] at hinv
       simp only [actionDisp] at hinv
       unfold simStep
       rw [h]
       simp only [applyAction, actionDisp]
       rw [moveStep_of_invalid _ _ _ _ _ _ hinv]
       exact ⟨rfl, rfl, rfl⟩)
  · decide

/-- Witness instantiating the hypotheses of C6's general part at the
corner scenario's concrete step. -/
theorem C6_witness :
    (simStep allSouth rngZero cornerStart).score = cornerStart.score + WALL_HIT_PTS ∧
    (simStep allSouth rngZero cornerStart).rx = cornerStart.rx ∧
    (simStep allSouth rngZero cornerStart).ry = cornerStart.ry :=
  C6_wall_penalty.1 allSouth rngZero cornerStart (by decide) (by decide)

/-- The pick outcome's score contribution plus ten times the new can
count never exceeds ten times the old can count: a successful pick
gains `PICK_SUCCESS_PTS` (10) but removes one can, a failed pick
loses 1. -/
theorem tryPickCan_measure (w : World) (x y : Int) :
    (if (w.tryPickCan x y).1 then PICK_SUCCESS_PTS else PICK_FAIL_PTS) +
      10 * (w.tryPickCan x y).2.canCount ≤ 10 * w.canCount := by
  cases hocc : w.hasCan x y with
  | false =>
    rw [World.tryPickCan_of_empty hocc]
    show PICK_FAIL_PTS + 10 * w.canCount ≤ 10 * w.canCount
    show (-1 : Int) + 10 * w.canCount ≤ 10 * w.canCount
    omega
  | true =>
    rw [World.tryPickCan_of_occupied hocc]
    show PICK_SUCCESS_PTS + 10 * (w.canCount - 1) ≤ 10 * w.canCount
    show (10 : Int) + 10 * (w.canCount - 1) ≤ 10 * w.canCount
    omega

/-- `simStep` preserves the world invariant. -/
theorem simStep_WF (g : RobotGenome) (rng : Nat → Fin 4) (st : SimState)
    (h : st.world.WF) : (simStep g rng st).world.WF := by
  unfold simStep
  cases resolvedAction g rng st <;>
    simp only [applyAction, moveStep_world] <;>
    first
      | exact h
      | exact World.tryPickCan_WF h st.rx st.ry

/-- Each iteration the quantity `score + 10 * canCount` never
increases: score only increases on a successful pick, which removes a
can. -/
theorem simStep_measure (g : RobotGenome) (rng : Nat → Fin 4) (st : SimState) :
    (simStep g rng st).score + 10 * (simStep g rng st).world.canCount ≤
      st.score + 10 * st.world.canCount := by
  unfold simStep
  cases resolvedAction g rng st <;>
    simp only [applyAction, moveStep_world]
  case TRY_PICK =>
    have h1 := moveStep_score_le st 0 0
      (st.score +
        if (st.world.tryPickCan st.rx st.ry).1 then PICK_SUCCESS_PTS else PICK_FAIL_PTS)
      (st.world.tryPickCan st.rx st.ry).2
      (if rawAction g st = RobotGenome.Action.MOVE_RANDOM then st.draws + 1 else st.draws)
    have h2 := tryPickCan_measure st.world st.rx st.ry
    omega
  all_goals
    exact add_le_add_right (moveStep_score_le st _ _ _ _ _) _

/-- Along the loop the world invariant holds and `score + 10 *
canCount` stays bounded by its initial value. -/
theorem simLoop_WF_measure (g : RobotGenome) (rng : Nat → Fin 4) (c0 : Int) :
    ∀ (n : Nat) (st : SimState), st.world.WF →
      st.score + 10 * st.world.canCount ≤ 10 * c0 →
      (simLoop g rng n st).world.WF ∧
        (simLoop g rng n st).score + 10 * (simLoop g rng n st).world.canCount ≤ 10 * c0 := by
  intro n
  induction n with
  | zero =>
    intro st h1 h2
    rw [simLoop_zero]
    exact ⟨h1, h2⟩
  | succ k ih =>
    intro st h1 h2
    rw [simLoop_succ]
    split
    · exact ih _ (simStep_WF g rng st h1) (le_trans (simStep_measure g rng st) h2)
    · exact ⟨h1, h2⟩

/-- C3: for a child evaluated by the generation loop of `main` (a fresh
random world, `maxPoints = canCount * PICK_SUCCESS_PTS` computed before
the episode, `maxSteps = WIDTH * HEIGHT = 121`): whenever the episode
reward is strictly positive the assigned fitness equals
reward / (initial can count * 10) and lies in [0,1]; whenever the
reward is not positive the fitness is exactly 0. -/
theorem C3_fitness_normalized (occ : Int → Int → Bool) (g : RobotGenome)
    (rng : Nat → Fin 4) :
    (0 < (simulate g rng (World.create occ) 121).score →
      evalFitness (simulate g rng (World.create occ) 121).score
          ((World.create occ).canCount * PICK_SUCCESS_PTS) =
        ((simulate g rng (World.create occ) 121).score : ℚ) /
          (((World.create occ).canCount : ℚ) * 10) ∧
      0 ≤ evalFitness (simulate g rng (World.create occ) 121).score
            ((World.create occ).canCount * PICK_SUCCESS_PTS) ∧
      evalFitness (simulate g rng (World.create occ) 121).score
          ((World.create occ).canCount * PICK_SUCCESS_PTS) ≤ 1) ∧
    ((simulate g rng (World.create occ) 121).score ≤ 0 →
      evalFitness (simulate g rng (World.create occ) 121).score
          ((World.create occ).canCount * PICK_SUCCESS_PTS) = 0) := by
  have hWF0 : (World.create occ).WF := World.create_WF occ
  have hkey := simLoop_WF_measure g rng (World.create occ).canCount 121
    (initState (World.create occ)) hWF0 (by simp [initState])
  have hfin_nonneg : 0 ≤ (simulate g rng (World.create occ) 121).world.canCount := by
    simp only [simulate]
    rw [hkey.1.1]
    exact gridCanCount_nonneg _
  have hscore_le :
      (simulate g rng (World.create occ) 121).score ≤
        10 * (World.create occ).canCount := by
    have := hkey.2
    simp only [simulate] at *
    omega
  constructor
  · intro hpos
    have hc0_pos : 0 < (World.create occ).canCount := by
      rcases lt_or_le 0 (World.create occ).canCount with h | h
      · exact h
      · exfalso
        have hstop : simulate g rng (World.create occ) 121 =
            initState (World.create occ) :=
          simLoop_of_no_cans g rng 121 (initState (World.create occ)) h
        rw [hstop] at hpos
        simp [initState] at hpos
    have hden_pos : (0 : ℚ) < ((World.create occ).canCount : ℚ) * 10 := by
      have : (0 : ℚ) < ((World.create occ).canCount : ℚ) := by
        exact_mod_cast hc0_pos
      linarith
    have heq : evalFitness (simulate g rng (World.create occ) 121).score
        ((World.create occ).canCount * PICK_SUCCESS_PTS) =
        ((simulate g rng (World.create occ) 121).score : ℚ) /
          (((World.create occ).canCount : ℚ) * 10) := by
      unfold evalFitness
      rw [if_pos hpos]
      simp only [PICK_SUCCESS_PTS]
      push_cast
      ring_nf
    refine ⟨heq, ?_, ?_⟩
    · rw [heq]
      apply div_nonneg
      · exact_mod_cast le_of_lt hpos
      · exact le_of_lt hden_pos
    · rw [heq]
      rw [div_le_one hden_pos]
      have : ((simulate g rng (World.create occ) 121).score : ℚ) ≤
          ((10 * (World.create occ).canCount : Int) : ℚ) := by
        exact_mod_cast hscore_le
      push_cast at this
      linarith
  · intro hnonpos
    unfold evalFitness
    rw [if_neg (by omega)]

/-- Cell outcomes with a single can at the center, where the agent
starts: used to witness the positive branch of C3. -/
def occCenter : Int → Int → Bool := fun a b => a == 5 && b == 5

/-- The all-TryPick genome: picks the center can on the first step. -/
def allPick : RobotGenome := fun _ => RobotGenome.Action.TRY_PICK

/-- Witness instantiating C3 on both branches: a positive-reward
episode (one can at the agent's start, all-TryPick genome) and a
zero-reward episode (no cans). -/
theorem C3_witness :
    (0 ≤ evalFitness (simulate allPick rngZero (World.create occCenter) 121).score
          ((World.create occCenter).canCount * PICK_SUCCESS_PTS) ∧
      evalFitness (simulate allPick rngZero (World.create occCenter) 121).score
          ((World.create occCenter).canCount * PICK_SUCCESS_PTS) ≤ 1) ∧
    evalFitness (simulate allStay rngZero (World.create occEmpty) 121).score
        ((World.create occEmpty).canCount * PICK_SUCCESS_PTS) = 0 := by
  constructor
  · have h := (C3_fitness_normalized occCenter allPick rngZero).1 (by decide)
    exact ⟨h.2.1, h.2.2⟩
  · exact (C3_fitness_normalized occEmpty allStay rngZero).2 (by decide)

/-- The check executed by the `assert(code < Input::COMBINATIONS)` in
`Input::Input(int code)` (main.cpp line 28): over C++ `int` the
comparison is signed, and it is the only check performed — there is no
lower-bound check. -/
def decodeAssertHolds (code : Int) : Bool := decide (code < 243)

/-- The five digit values extracted by the constructor's loop
`state[5-(1+i)] = static_cast<State>(code % 3); code /= 3` over C++
`int`, whose `%` and `/` truncate toward zero (`Int.tmod` /
`Int.tdiv`); listed in extraction order `state[4], ..., state[0]`.
A digit is a valid `Input::State` value iff it lies in [0,3). -/
def decodeDigits (code : Int) : List Int :=
  [code.tmod 3,
   (code.tdiv 3).tmod 3,
   ((code.tdiv 3).tdiv 3).tmod 3,
   (((code.tdiv 3).tdiv 3).tdiv 3).tmod 3,
   ((((code.tdiv 3).tdiv 3).tdiv 3).tdiv 3).tmod 3]

/-- C9 counterexample: at code = -1 (a negative code, where the claim
says the assertion must fire) the assertion in fact passes, and the
constructor silently extracts the digit -1, which is not a valid
state value. -/
theorem C9_counterexample :
    (-1 : Int) < 0 ∧ decodeAssertHolds (-1) = true ∧ (-1 : Int) ∈ decodeDigits (-1) := by
  decide

/-- C9 amended: the constructor's assertion checks only the upper
bound: it fails exactly for code ≥ 243.  For code in [0,243) it passes
and every extracted digit is a valid state value in [0,3).  (For
negative codes it also passes, and the digits can be invalid, as the
counterexample shows.) -/
theorem C9_assert_only_upper_bound :
    (∀ code : Int, decodeAssertHolds code = false ↔ 243 ≤ code) ∧
    (∀ code : Int, 0 ≤ code → code < 243 →
      decodeAssertHolds code = true ∧ ∀ d ∈ decodeDigits code, 0 ≤ d ∧ d < 3) := by
  constructor
  · intro code
    simp [decodeAssertHolds, Int.not_lt]
  · intro code h0 h1
    refine ⟨by simp [decodeAssertHolds, h1], ?_⟩
    have n1 : (0 : Int) ≤ code.tdiv 3 := Int.tdiv_nonneg h0 (by norm_num)
    have n2 : (0 : Int) ≤ (code.tdiv 3).tdiv 3 := Int.tdiv_nonneg n1 (by norm_num)
    have n3 : (0 : Int) ≤ ((code.tdiv 3).tdiv 3).tdiv 3 := Int.tdiv_nonneg n2 (by norm_num)
    have n4 : (0 : Int) ≤ (((code.tdiv 3).tdiv 3).tdiv 3).tdiv 3 :=
      Int.tdiv_nonneg n3 (by norm_num)
    intro d hd
    simp only [decodeDigits, List.mem_cons, List.not_mem_nil, or_false] at hd
    rcases hd with rfl | rfl | rfl | rfl | rfl <;>
      exact ⟨Int.tmod_nonneg 3 (by assumption),
        Int.tmod_lt_of_pos _ (by norm_num)⟩

/-- Witness instantiating the in-range part of C9's amended statement
at the concrete code 200. -/
theorem C9_witness :
    decodeAssertHolds 200 = true ∧ ∀ d ∈ decodeDigits 200, 0 ≤ d ∧ d < 3 :=
  C9_assert_only_upper_bound.2 200 (by decide) (by decide)

end EvolvingRobby
